import Mathlib

/-!
Shallow embedding of the PyMineHub server core (RakNet endpoint, BATCH codec,
batch queue, world space) and proofs about the behaviour of that code.

Byte strings are modelled as `List Nat` (one entry per byte); machine-integer
fields carry explicit range hypotheses where wire encoding needs them.
-/

namespace PyMineHub

/-- Big-endian byte expansion: `beBytes n v` is the `n`-byte big-endian
encoding of `v` (low bytes of `v` beyond `n` bytes are truncated), as written
by the fixed-width unsigned codecs of §4.A (u16 `SHORT_DATA`, u64 `LONG_DATA`). -/
def beBytes : Nat → Nat → List Nat
  | 0, _ => []
  | n + 1, v => beBytes n (v / 256) ++ [v % 256]

/-- Big-endian value of a byte list, the reading direction of §4.A. -/
def beVal (bytes : List Nat) : Nat :=
  bytes.foldl (fun acc b => acc * 256 + b) 0

/-- Take exactly `n` leading bytes, failing when fewer are available
(the behaviour of a codec reading from a buffer that is too short). -/
def readBytes (n : Nat) (data : List Nat) : Option (List Nat × List Nat) :=
  if n ≤ data.length then some (data.take n, data.drop n) else none

/-- Modelled from the spec: `VAR_INT_DATA.write`
(pyminehub/mcpe/network/codec/common.py, which is not under src/); §4.A
specifies unsigned varints, i.e. base-128 groups, least significant first,
high bit set on every byte except the last. The loop is fuelled; `fuel = n`
always suffices since the remaining value shrinks strictly. -/
def varIntWriteAux : Nat → Nat → List Nat
  | 0, n => [n]
  | fuel + 1, n =>
    if n < 128 then [n] else (n % 128 + 128) :: varIntWriteAux fuel (n / 128)

/-- The unsigned varint encoding of `n` (see `varIntWriteAux`). -/
def varIntWrite (n : Nat) : List Nat := varIntWriteAux n n

/-- Modelled from the spec: `VAR_INT_DATA.read`
(pyminehub/mcpe/network/codec/common.py, which is not under src/), the
inverse direction of the unsigned varint of §4.A. -/
def varIntRead : List Nat → Option (Nat × List Nat)
  | [] => none
  | b :: rest =>
    if b < 128 then some (b, rest)
    else
      match varIntRead rest with
      | none => none
      | some (v, r) => some (v * 128 + (b - 128), r)

/-- Modelled from the spec: the `zlib` deflate library used by the BATCH
codec (an external library, not part of this repository). Only its
documented contract is kept: `decompress` inverts `compress` at every
compression level. A BATCH proof quantifies over every such codec. -/
structure ZlibCodec where
  compress : Nat → List Nat → List Nat
  decompress : List Nat → Option (List Nat)
  decompress_compress : ∀ level data, decompress (compress level data) = some data

/-- The trivial stored codec, one concrete inhabitant of the `zlib` contract
(level is ignored, the data is passed through). -/
def storedZlib : ZlibCodec :=
  ⟨fun _ data => data, fun data => some data, fun _ _ => rfl⟩

/-- The loop body of `_CompressedPacketList.write`
(src/pyminehub/mcpe/network/codec/connection.py:44-49): the concatenation of
the varint-length-prefixed records, built left to right. -/
def framePayload : List (List Nat) → List Nat
  | [] => []
  | v :: vs => varIntWrite v.length ++ v ++ framePayload vs

/-- `_CompressedPacketList._does_compress`
(src/pyminehub/mcpe/network/codec/connection.py:28-30): compress for real
exactly when the payload length reaches the configured threshold. -/
def doesCompress (threshold : Nat) (payload : List Nat) : Bool :=
  decide (threshold ≤ payload.length)

/-- `_CompressedPacketList._COMPRESS_LEVEL`
(src/pyminehub/mcpe/network/codec/connection.py:26). -/
def COMPRESS_LEVEL : Nat := 7

/-- `_CompressedPacketList.write`
(src/pyminehub/mcpe/network/codec/connection.py:44-52): varint-length-prefix
each record, concatenate, deflate at level 7 or 0 depending on the
threshold test. -/
def compressedPacketListWrite (z : ZlibCodec) (threshold : Nat)
    (value : List (List Nat)) : List Nat :=
  z.compress
    (if doesCompress threshold (framePayload value) then COMPRESS_LEVEL else 0)
    (framePayload value)

/-- The re-splitting loop of `_CompressedPacketList.read`
(src/pyminehub/mcpe/network/codec/connection.py:36-42), fuelled by the
payload length (each iteration consumes at least one byte). `pop_first`
(codec/common.py, not under src/) is modelled from the spec as removing
exactly `length` leading bytes, failing when the buffer is shorter. -/
def splitGo : Nat → List Nat → Option (List (List Nat))
  | _, [] => some []
  | 0, _ :: _ => none
  | fuel + 1, payload@(_ :: _) =>
    match varIntRead payload with
    | none => none
    | some (len, rest) =>
      if len ≤ rest.length then
        match splitGo fuel (rest.drop len) with
        | none => none
        | some ds => some (rest.take len :: ds)
      else none

/-- The record list recovered from a decompressed BATCH payload
(src/pyminehub/mcpe/network/codec/connection.py:36-42). -/
def splitRecords (payload : List Nat) : Option (List (List Nat)) :=
  splitGo payload.length payload

/-- `_CompressedPacketList.read`
(src/pyminehub/mcpe/network/codec/connection.py:32-42): inflate, then
re-split into varint-length-prefixed records. -/
def compressedPacketListRead (z : ZlibCodec) (data : List Nat) :
    Option (List (List Nat)) :=
  match z.decompress data with
  | none => none
  | some payload => splitRecords payload

/-- `GamePacketType` (pyminehub/mcpe/network/packet.py is not under src/; the
roster is taken from the game-packet coverage table of spec §4.E, and the
eight members of `_BatchQueue._RELIABILITY` all appear in
src/pyminehub/mcpe/network/queue.py:15-24). -/
inductive GamePacketType where
  | LOGIN
  | PLAY_STATUS
  | RESOURCE_PACKS_INFO
  | RESOURCE_PACK_STACK
  | RESOURCE_PACK_CLIENT_RESPONSE
  | START_GAME
  | SET_TIME
  | UPDATE_ATTRIBUTES
  | ADVENTURE_SETTINGS
  | AVAILABLE_COMMANDS
  | REQUEST_CHUNK_RADIUS
  | CHUNK_RADIUS_UPDATED
  | FULL_CHUNK_DATA
  | MOVE_PLAYER
  | MOVE_ENTITY
  | ADD_PLAYER
  | ADD_ENTITY
  | REMOVE_ENTITY
  | TEXT
  | COMMAND_REQUEST
  | INVENTORY_CONTENT
  | MOB_EQUIPMENT
  | INVENTORY_SLOT
  | CRAFTING_DATA
  | PLAYER_LIST
  | PLAYER_ACTION
  | DISCONNECT
deriving DecidableEq, Repr

/-- A game packet as the queue sees it: its type tag (`packet.id`) plus its
remaining, codec-opaque fields. -/
structure GamePacket where
  id : GamePacketType
  body : List Nat
deriving DecidableEq, Repr

/-- `Reliability` (pyminehub/raknet/frame.py, not under src/): the two-field
descriptor (reliable, channel) of spec §3, as constructed by
`Reliability(True, 0)` in src/pyminehub/mcpe/network/queue.py:10. -/
structure Reliability where
  reliable : Bool
  channel : Nat
deriving DecidableEq, Repr

/-- `_RELIABILITY_CHANEL_DEFAULT` (src/pyminehub/mcpe/network/queue.py:10). -/
def RELIABILITY_CHANEL_DEFAULT : Reliability := ⟨true, 0⟩

/-- `_BatchQueue._RELIABILITY` (src/pyminehub/mcpe/network/queue.py:15-24)
as a partial lookup: `none` is a missing key, on which Python's `dict`
lookup raises `KeyError`. -/
def batchQueueReliability : GamePacketType → Option Reliability
  | .PLAY_STATUS => some RELIABILITY_CHANEL_DEFAULT
  | .RESOURCE_PACKS_INFO => some RELIABILITY_CHANEL_DEFAULT
  | .RESOURCE_PACK_STACK => some RELIABILITY_CHANEL_DEFAULT
  | .START_GAME => some RELIABILITY_CHANEL_DEFAULT
  | .SET_TIME => some RELIABILITY_CHANEL_DEFAULT
  | .UPDATE_ATTRIBUTES => some RELIABILITY_CHANEL_DEFAULT
  | .AVAILABLE_COMMANDS => some RELIABILITY_CHANEL_DEFAULT
  | .ADVENTURE_SETTINGS => some RELIABILITY_CHANEL_DEFAULT
  | _ => none

/-- The eight game-packet types `_BatchQueue._RELIABILITY` has keys for
(src/pyminehub/mcpe/network/queue.py:15-24). -/
def batchQueueTypes : List GamePacketType :=
  [.PLAY_STATUS, .RESOURCE_PACKS_INFO, .RESOURCE_PACK_STACK, .START_GAME,
   .SET_TIME, .UPDATE_ATTRIBUTES, .AVAILABLE_COMMANDS, .ADVENTURE_SETTINGS]

/-- The Python exceptions the embedded code can raise. -/
inductive PyError where
  | keyError
  | decodeError
  | attributeError
  | sessionNotFound
deriving DecidableEq, Repr

/-- `_BatchQueue.append` (src/pyminehub/mcpe/network/queue.py:29-34): look up
the packet type's reliability (a missing key raises `KeyError` before the
entry list is touched), then append the (reliability, packet) entry. -/
def batchQueueAppend (packets : List (Reliability × GamePacket))
    (packet : GamePacket) : Except PyError (List (Reliability × GamePacket)) :=
  match batchQueueReliability packet.id with
  | some reliability => .ok (packets ++ [(reliability, packet)])
  | none => .error .keyError

/-- A BATCH connection packet: `connection_packet_factory.create(BATCH, payloads)`
(src/pyminehub/mcpe/network/queue.py:41,46) carrying the encoded game
packets of one flush group. -/
structure BatchPacket where
  payloads : List (List Nat)
deriving DecidableEq, Repr

/-- The loop of `_BatchQueue.send` (src/pyminehub/mcpe/network/queue.py:36-47):
walk the entries in append order accumulating encoded packets; when the
reliability changes, pass the accumulated BATCH to `sendto`; after the loop,
pass the final BATCH unconditionally. Returns the `sendto` calls in order,
each with the reliability argument it was given (`none` is Python's `None`). -/
def batchQueueSendLoop (encode : GamePacket → List Nat)
    (payloads : List (List Nat)) (lastReliability : Option Reliability) :
    List (Reliability × GamePacket) → List (BatchPacket × Option Reliability)
  | [] => [(⟨payloads⟩, lastReliability)]
  | (reliability, packet) :: rest =>
    if lastReliability ≠ none ∧ lastReliability ≠ some reliability then
      (⟨payloads⟩, lastReliability) ::
        batchQueueSendLoop encode [encode packet] (some reliability) rest
    else
      batchQueueSendLoop encode (payloads ++ [encode packet]) (some reliability) rest

/-- `_BatchQueue.send` (src/pyminehub/mcpe/network/queue.py:36-48): the
`sendto` calls made, paired with the entry list after `self._packets.clear()`. -/
def batchQueueSend (encode : GamePacket → List Nat)
    (packets : List (Reliability × GamePacket)) :
    List (BatchPacket × Option Reliability) × List (Reliability × GamePacket) :=
  (batchQueueSendLoop encode [] none packets, [])

/-- Specification-side grouping: the maximal runs of consecutive entries that
share a reliability descriptor, in append order (spec §4.G step 1). -/
def groupRuns : List (Reliability × GamePacket) → List (Reliability × List GamePacket)
  | [] => []
  | (r, p) :: rest =>
    match groupRuns rest with
    | [] => [(r, [p])]
    | (r', ps) :: gs =>
      if r = r' then (r, p :: ps) :: gs else (r, [p]) :: (r', ps) :: gs

/-- Specification-side flush (spec §4.G steps 1-2): one BATCH per reliability
run, containing that run's encoded packets in append order, passed with that
run's reliability. -/
def groupedBatchCalls (encode : GamePacket → List Nat)
    (packets : List (Reliability × GamePacket)) :
    List (BatchPacket × Option Reliability) :=
  (groupRuns packets).map (fun g => (⟨g.2.map encode⟩, some g.1))

/-- A remote address, the routing key of the endpoint's session map
(pyminehub/network/address.py is not under src/; any type with decidable
equality serves as the dictionary key). -/
abbrev Address : Type := String × Nat

/-- First-match association-list lookup, standing for Python `dict`
indexing (`none` is the missing key on which `dict[key]` raises). -/
def assocFind {κ α : Type} [DecidableEq κ] : List (κ × α) → κ → Option α
  | [], _ => none
  | (k, v) :: rest, key => if k = key then some v else assocFind rest key

/-- Association-list update standing for Python `dict` assignment:
replace in place, or append a new key. -/
def assocSet {κ α : Type} [DecidableEq κ] : List (κ × α) → κ → α → List (κ × α)
  | [], key, v => [(key, v)]
  | (k, w) :: rest, key, v =>
    if k = key then (key, v) :: rest else (k, w) :: assocSet rest key v

/-- Association-list deletion standing for Python `del dict[key]`. -/
def assocErase {κ α : Type} [DecidableEq κ] : List (κ × α) → κ → List (κ × α)
  | [], _ => []
  | (k, w) :: rest, key =>
    if k = key then rest else (k, w) :: assocErase rest key

/-- Python `str.title()` over ASCII letters, applied to the game mode in
`_RakNetProtocolImpl.__init__` (src/pyminehub/raknet/server.py:28): the
first letter of each alphabetical run is upper-cased, the rest lower-cased. -/
def pyTitleGo : Bool → List Char → List Char
  | _, [] => []
  | prevCased, c :: cs =>
    let cased := c.isAlpha
    (if cased then (if prevCased then c.toLower else c.toUpper) else c)
      :: pyTitleGo cased cs

/-- Python `str.title()` (see `pyTitleGo`). -/
def pyTitle (s : String) : String := ⟨pyTitleGo false s.data⟩

/-- The configuration values `_RakNetProtocolImpl.__init__` reads
(src/pyminehub/raknet/server.py:24-28): `SERVER_GUID`, `WORLD_NAME`,
`GAME_MODE`. -/
structure ServerConfig where
  serverGuid : Nat
  worldName : String
  gameMode : String
deriving DecidableEq, Repr

/-- `self.server_id` as formatted in `_RakNetProtocolImpl.__init__`
(src/pyminehub/raknet/server.py:25-29):
`'MCPE;PyMineHub Server;160;1.2.7;0;20;\x7b\x7d;\x7b\x7d;\x7b\x7d;'.format(guid, world_name, game_mode.title())`. -/
def serverId (cfg : ServerConfig) : String :=
  "MCPE;PyMineHub Server;160;1.2.7;0;20;" ++ toString cfg.serverGuid ++ ";"
    ++ cfg.worldName ++ ";" ++ pyTitle cfg.gameMode ++ ";"

/-- An incoming RakNet packet after the outer decode. Fields are those the
server's `_process_*` handlers read (src/pyminehub/raknet/server.py:90-136).
`otherKnown` is a packet whose leading byte is a known tag of §6.3 but for
which `_RakNetProtocolImpl` defines no `_process_` method. -/
inductive RakNetPacketIn where
  | unconnectedPing (timeSinceStart : Nat)
  | openConnectionRequest1 (mtuSize : Nat)
  | openConnectionRequest2 (mtuSize : Nat)
  | frameSet (tag : Nat) (packetSequenceNum : Nat) (payload : List Nat)
  | ack (payload : List Nat)
  | nck (payload : List Nat)
  | otherKnown (tag : Nat) (payload : List Nat)
deriving DecidableEq, Repr

/-- An outgoing RakNet packet, with the argument lists of the
`raknet_packet_factory.create` calls in src/pyminehub/raknet/server.py:90-103. -/
inductive RakNetPacketOut where
  | unconnectedPong (timeSinceStart : Nat) (guid : Nat) (isValid : Bool)
      (serverId : String)
  | openConnectionReply1 (validMessageDataId : Bool) (guid : Nat)
      (useEncryption : Bool) (mtuSize : Nat)
  | openConnectionReply2 (validMessageDataId : Bool) (guid : Nat)
      (clientAddress : Address) (mtuSize : Nat) (useEncryption : Bool)
deriving DecidableEq, Repr

/-- Modelled from the spec: `raknet_packet_codec.decode`
(pyminehub/raknet/codec.py, which is not under src/). Only what the claims
need is kept: the leading-byte tag dispatch of §6.3 — an unknown leading
byte (or an empty datagram) fails the decode — while the remaining fields
are carried schematically from the rest of the datagram. -/
def raknetPacketDecode (data : List Nat) : Option RakNetPacketIn :=
  match data with
  | [] => none
  | tag :: rest =>
    if tag = 0x01 then some (.unconnectedPing (beVal (rest.take 8)))
    else if tag = 0x05 then some (.openConnectionRequest1 (rest.length + 18))
    else if tag = 0x07 then some (.openConnectionRequest2 (beVal (rest.take 2)))
    else if tag = 0x80 ∨ tag = 0x84 ∨ tag = 0x8c then
      some (.frameSet tag (beVal (rest.take 3)) (rest.drop 3))
    else if tag = 0xc0 then some (.ack rest)
    else if tag = 0xa0 then some (.nck rest)
    else if tag = 0x00 ∨ tag = 0x03 ∨ tag = 0x06 ∨ tag = 0x08 ∨ tag = 0x09
        ∨ tag = 0x10 ∨ tag = 0x13 ∨ tag = 0x15 ∨ tag = 0x1c then
      some (.otherKnown tag rest)
    else none

/-- The endpoint's mutable state: `self._sessions`
(src/pyminehub/raknet/server.py:23), a dict from address to its `Session`.
`Session` internals (pyminehub/raknet/session.py, not under src/) are kept
opaque; only the negotiated MTU passed at construction is recorded. -/
structure RakNetProtocolState where
  sessions : List (Address × Nat)
deriving DecidableEq, Repr

/-- `_RakNetProtocolImpl._remove_session` (src/pyminehub/raknet/server.py:79-82):
close and delete the session when the address is tracked, otherwise do
nothing. -/
def removeSession (st : RakNetProtocolState) (addr : Address) :
    RakNetProtocolState :=
  match assocFind st.sessions addr with
  | some _ => ⟨assocErase st.sessions addr⟩
  | none => st

/-- The `_process_*` dispatch of `_RakNetProtocolImpl`
(src/pyminehub/raknet/server.py:90-136), as the state it leaves and the
packets it sends, or the exception it raises. `_get_session` raises
`SessionNotFound` for an untracked address before anything else happens; a
known leading byte without a `_process_` method raises `AttributeError`
from the `getattr` dispatch (src/pyminehub/raknet/server.py:52). For a
tracked session, `frame_received`/`ack_received`/`nck_received` mutate only
the opaque `Session` internals, so the session map is returned unchanged. -/
def processPacket (cfg : ServerConfig) (st : RakNetProtocolState)
    (packet : RakNetPacketIn) (addr : Address) :
    Except PyError (RakNetProtocolState × List (RakNetPacketOut × Address)) :=
  match packet with
  | .unconnectedPing t =>
    .ok (st, [(.unconnectedPong t cfg.serverGuid true (serverId cfg), addr)])
  | .openConnectionRequest1 mtu =>
    .ok (st, [(.openConnectionReply1 true cfg.serverGuid false mtu, addr)])
  | .openConnectionRequest2 mtu =>
    .ok (⟨assocSet st.sessions addr mtu⟩,
      [(.openConnectionReply2 true cfg.serverGuid addr mtu false, addr)])
  | .frameSet _ _ _ =>
    match assocFind st.sessions addr with
    | some _ => .ok (st, [])
    | none => .error .sessionNotFound
  | .ack _ =>
    match assocFind st.sessions addr with
    | some _ => .ok (st, [])
    | none => .error .sessionNotFound
  | .nck _ =>
    match assocFind st.sessions addr with
    | some _ => .ok (st, [])
    | none => .error .sessionNotFound
  | .otherKnown _ _ => .error .attributeError

/-- The observable outcome of one `datagram_received` call: the exception it
raises to its caller (if any), the session map afterwards, and what it sent. -/
structure StepOutcome where
  exc : Option PyError
  state : RakNetProtocolState
  sent : List (RakNetPacketOut × Address)
deriving DecidableEq, Repr

/-- `_RakNetProtocolImpl.datagram_received` (src/pyminehub/raknet/server.py:47-55):
the outer decode runs before the `try` block, so a decode failure
propagates to the caller; inside the `try`, only `SessionNotFound` is
caught (logged, then `_remove_session`); any other exception propagates. -/
def datagramReceived (cfg : ServerConfig) (st : RakNetProtocolState)
    (data : List Nat) (addr : Address) : StepOutcome :=
  match raknetPacketDecode data with
  | none => ⟨some .decodeError, st, []⟩
  | some packet =>
    match processPacket cfg st packet addr with
    | .ok (st', sent) => ⟨none, st', sent⟩
    | .error .sessionNotFound => ⟨none, removeSession st addr, []⟩
    | .error e => ⟨some e, st, []⟩

/-- `_RakNetProtocolImpl._next_moment` (src/pyminehub/raknet/server.py:71-77):
await `handler.update()`; when it raises `SessionNotFound` carrying an
address, remove that session; otherwise the session map is untouched. The
argument is the handler outcome: `none` when `update()` returned,
`some a` when it raised `SessionNotFound` with address `a`. -/
def nextMoment (st : RakNetProtocolState) (updateOutcome : Option Address) :
    RakNetProtocolState :=
  match updateOutcome with
  | none => st
  | some a => removeSession st a

/-- The periodic update loop (src/pyminehub/raknet/server.py:32-36) run for
`n` ticks during which no datagram arrives and `handler.update()` returns
normally each time (the behaviour of `MockHandler.update`,
src/pyminehub/raknet/server.py:165-166; the endpoint itself keeps no
last-activity time — note the `TODO session timeout` at
src/pyminehub/raknet/server.py:23). -/
def ticksWithoutDatagrams : Nat → RakNetProtocolState → RakNetProtocolState
  | 0, st => st
  | n + 1, st => ticksWithoutDatagrams n (nextMoment st none)

/-- The packet kinds routed through `_get_session` by the server
(src/pyminehub/raknet/server.py:109-136): FRAME_SET (any of its tags),
ACK and NACK. -/
def isSessionBound : RakNetPacketIn → Bool
  | .frameSet _ _ _ => true
  | .ack _ => true
  | .nck _ => true
  | _ => false

/-- An address record value as it appears inside packets
(`AddressInPacket`; pyminehub/network/address.py is not under src/):
IP version, IP bytes, port. -/
structure AddressInPacket where
  ipVersion : Nat
  ipAddress : List Nat
  port : Nat
deriving DecidableEq, Repr

/-- A well-formed address record: version 4 with four IP bytes or version 6
with sixteen, every IP byte and the port in machine range. -/
def validAddress (a : AddressInPacket) : Prop :=
  ((a.ipVersion = 4 ∧ a.ipAddress.length = 4)
    ∨ (a.ipVersion = 6 ∧ a.ipAddress.length = 16)) ∧
  (∀ b ∈ a.ipAddress, b < 256) ∧ a.port < 65536

instance (a : AddressInPacket) : Decidable (validAddress a) := by
  unfold validAddress
  infer_instance

/-- Modelled from the spec: `ADDRESS_DATA.write`
(pyminehub/mcpe/network/codec/common.py, not under src/); §4.A: one version
byte, 4 or 16 IP bytes — IPv4 octets bitwise-inverted on the wire — then a
big-endian u16 port. -/
def writeAddress (a : AddressInPacket) : List Nat :=
  a.ipVersion
    :: (if a.ipVersion = 4 then a.ipAddress.map (fun b => 255 - b)
        else a.ipAddress)
    ++ beBytes 2 a.port

/-- Modelled from the spec: `ADDRESS_DATA.read`
(pyminehub/mcpe/network/codec/common.py, not under src/), the inverse
direction of §4.A's address record. -/
def readAddress (data : List Nat) : Option (AddressInPacket × List Nat) :=
  match data with
  | [] => none
  | version :: rest =>
    if version = 4 then
      match readBytes 4 rest with
      | some (ipRaw, r1) =>
        match r1 with
        | hi :: lo :: r2 =>
          some (⟨4, ipRaw.map (fun b => 255 - b), hi * 256 + lo⟩, r2)
        | _ => none
      | none => none
    else if version = 6 then
      match readBytes 16 rest with
      | some (ip, r1) =>
        match r1 with
        | hi :: lo :: r2 => some (⟨6, ip, hi * 256 + lo⟩, r2)
        | _ => none
      | none => none
    else none

/-- `_AddressList(size).read` (src/pyminehub/mcpe/network/codec/connection.py:16-17):
read exactly `size` consecutive address records. -/
def readAddressList : Nat → List Nat → Option (List AddressInPacket × List Nat)
  | 0, data => some ([], data)
  | n + 1, data =>
    match readAddress data with
    | none => none
    | some (a, rest) =>
      match readAddressList n rest with
      | none => none
      | some (as, rest') => some (a :: as, rest')

/-- `_AddressList(size).write` (src/pyminehub/mcpe/network/codec/connection.py:19-21):
write `value[i]` for `i in range(size)` — exactly the first `size` records;
a shorter list raises `IndexError` (modelled as `none`). -/
def writeAddressList (size : Nat) (value : List AddressInPacket) :
    Option (List Nat) :=
  if size ≤ value.length then some ((value.take size).flatMap writeAddress)
  else none

/-- The CONNECTION_REQUEST_ACCEPTED packet value, with one field per codec
entry of `_packet_data_codecs[CONNECTION_REQUEST_ACCEPTED]`
(src/pyminehub/mcpe/network/codec/connection.py:68-74): ADDRESS_DATA,
SHORT_DATA, _AddressList(20), LONG_DATA (client time), LONG_DATA (server
time). -/
structure ConnectionRequestAccepted where
  clientAddress : AddressInPacket
  systemIndex : Nat
  internalAddresses : List AddressInPacket
  clientTimeSinceStart : Nat
  serverTimeSinceStart : Nat
deriving DecidableEq, Repr

/-- Encoding per `_packet_data_codecs[CONNECTION_REQUEST_ACCEPTED]`
(src/pyminehub/mcpe/network/codec/connection.py:68-74): the five field
codecs written in order. -/
def connectionRequestAcceptedEncode (p : ConnectionRequestAccepted) :
    Option (List Nat) :=
  match writeAddressList 20 p.internalAddresses with
  | none => none
  | some addressBytes =>
    some (writeAddress p.clientAddress ++ beBytes 2 p.systemIndex
      ++ addressBytes ++ beBytes 8 p.clientTimeSinceStart
      ++ beBytes 8 p.serverTimeSinceStart)

/-- Decoding per `_packet_data_codecs[CONNECTION_REQUEST_ACCEPTED]`
(src/pyminehub/mcpe/network/codec/connection.py:68-74): the five field
codecs read in order, `_AddressList(20)` reading exactly twenty records. -/
def connectionRequestAcceptedDecode (data : List Nat) :
    Option ConnectionRequestAccepted :=
  match readAddress data with
  | none => none
  | some (clientAddress, r1) =>
    match readBytes 2 r1 with
    | none => none
    | some (indexBytes, r2) =>
      match readAddressList 20 r2 with
      | none => none
      | some (internalAddresses, r3) =>
        match readBytes 8 r3 with
        | none => none
        | some (clientTimeBytes, r4) =>
          match readBytes 8 r4 with
          | none => none
          | some (serverTimeBytes, _) =>
            some ⟨clientAddress, beVal indexBytes, internalAddresses,
              beVal clientTimeBytes, beVal serverTimeBytes⟩

/-- Block type constants used by `Space.break_block`; a subset of the
`BlockType` enum (src/pyminehub/mcpe/const.py:262-270, AIR = 0,
BEDROCK = 7). -/
inductive BlockType where
  | AIR
  | STONE
  | GRASS
  | DIRT
  | COBBLESTONE
  | BEDROCK
  | SAND
  | GRAVEL
deriving DecidableEq, Repr

/-- A block value: type plus `aux_value`
(`Block` in pyminehub/mcpe/value.py, not under src/). -/
structure Block where
  type : BlockType
  aux : Nat
deriving DecidableEq, Repr

/-- `BLOCK_AIR = Block(BlockType.AIR, 0)`
(src/pyminehub/mcpe/world/space.py:17). -/
def BLOCK_AIR : Block := ⟨.AIR, 0⟩

/-- A world position (`Vector3[int]`, pyminehub/mcpe/geometry.py, not under
src/). -/
structure Vector3 where
  x : Int
  y : Int
  z : Int
deriving DecidableEq, Repr

/-- A chunk-column position. -/
abbrev ChunkPosition : Type := Int × Int

/-- Modelled from the spec: `ChunkPosition.at`
(pyminehub/mcpe/geometry.py, not under src/): chunks are 16×16 columns
(§4.E, FULL_CHUNK_DATA is one chunk column), so a position's chunk is the
floor division of its x and z by 16 (Python `//`). -/
def chunkPositionAt (p : Vector3) : ChunkPosition := (p.x.fdiv 16, p.z.fdiv 16)

/-- Modelled from the spec: `to_local_position`
(pyminehub/mcpe/geometry.py, not under src/): the coordinates within the
16×16 column (Python `%`, always non-negative). -/
def toLocalPosition (p : Vector3) : Vector3 := ⟨p.x.emod 16, p.y, p.z.emod 16⟩

/-- An item stack (`Item` in pyminehub/mcpe/value.py, not under src/). -/
structure Item where
  itemType : Nat
  quantity : Nat
  data : Nat
deriving DecidableEq, Repr

/-- A chunk with `get_block`/`set_block`
(pyminehub/mcpe/chunk.py, not under src/): its blocks as a total map on
local positions. -/
structure Chunk where
  blocks : Vector3 → Block

/-- `chunk.get_block(position_in_chunk)`. -/
def Chunk.getBlock (c : Chunk) (p : Vector3) : Block := c.blocks p

/-- `chunk.set_block(position_in_chunk, block)`: pointwise update. -/
def Chunk.setBlock (c : Chunk) (p : Vector3) (b : Block) : Chunk :=
  ⟨fun q => if q = p then b else c.blocks q⟩

/-- `Space` state (src/pyminehub/mcpe/world/space.py:20-26): the chunk
cache (`self._cache`) and the generator, modelled as a pure function (the
same chunk for the same position on every call). -/
structure Space where
  cache : List (ChunkPosition × Chunk)
  generator : ChunkPosition → Chunk

/-- `Space.get_chunk` (src/pyminehub/mcpe/world/space.py:37-43): return the
cached chunk, or generate it and put it in the cache. -/
def Space.getChunk (s : Space) (position : ChunkPosition) : Chunk × Space :=
  match assocFind s.cache position with
  | some chunk => (chunk, s)
  | none =>
    let chunk := s.generator position
    (chunk, ⟨assocSet s.cache position chunk, s.generator⟩)

/-- The in-place mutation of a cached chunk object, as a cache update. -/
def Space.cacheSet (s : Space) (position : ChunkPosition) (chunk : Chunk) :
    Space :=
  ⟨assocSet s.cache position chunk, s.generator⟩

/-- The block the space shows at a world position: the cached (or else
freshly generated) chunk's block at the local position. -/
def Space.blockAt (s : Space) (position : Vector3) : Block :=
  (match assocFind s.cache (chunkPositionAt position) with
   | some chunk => chunk
   | none => s.generator (chunkPositionAt position)).getBlock
    (toLocalPosition position)

/-- `Space.break_block` (src/pyminehub/mcpe/world/space.py:55-65): via
`_to_local`, fetch the chunk and local position, read the block; AIR and
BEDROCK cannot be broken (`None`, nothing modified); otherwise set the
block to `BLOCK_AIR` and return the spawned items. `toItem` stands for
`get_block_spec(block.type).to_item()` (pyminehub/mcpe/world/block.py's
spec table), which the claim does not inspect. -/
def Space.breakBlock (toItem : BlockType → List Item) (s : Space)
    (position : Vector3) : Option (List Item) × Space :=
  let result := s.getChunk (chunkPositionAt position)
  let chunk := result.1
  let s1 := result.2
  let positionInChunk := toLocalPosition position
  let block := chunk.getBlock positionInChunk
  if block.type = .AIR ∨ block.type = .BEDROCK then (none, s1)
  else
    (some (toItem block.type),
      s1.cacheSet (chunkPositionAt position)
        (chunk.setBlock positionInChunk BLOCK_AIR))

end PyMineHub

namespace PyMineHub

theorem varIntRead_varIntWriteAux (fuel : Nat) :
    ∀ (n : Nat) (rest : List Nat), n < 128 ∨ n ≤ fuel →
      varIntRead (varIntWriteAux fuel n ++ rest) = some (n, rest) := by
  induction fuel with
  | zero =>
    intro n rest h
    have hn : n < 128 := by omega
    simp [varIntWriteAux, varIntRead, hn]
  | succ f ih =>
    intro n rest h
    by_cases hn : n < 128
    · simp [varIntWriteAux, varIntRead, hn]
    · rw [varIntWriteAux, if_neg hn]
      simp only [List.cons_append, varIntRead, List.append_eq]
      rw [if_neg (by omega)]
      rw [ih (n / 128) rest (by omega)]
      have heq : n / 128 * 128 + (n % 128 + 128 - 128) = n := by omega
      simp only [heq]

theorem varIntRead_varIntWrite (n : Nat) (rest : List Nat) :
    varIntRead (varIntWrite n ++ rest) = some (n, rest) :=
  varIntRead_varIntWriteAux n n rest (Or.inr (Nat.le_refl n))

theorem varIntWrite_ne_nil (n : Nat) : varIntWrite n ≠ [] := by
  unfold varIntWrite
  cases n with
  | zero => simp [varIntWriteAux]
  | succ m =>
    rw [varIntWriteAux]
    split <;> simp

theorem splitGo_framePayload (records : List (List Nat)) :
    ∀ fuel, (framePayload records).length ≤ fuel →
      splitGo fuel (framePayload records) = some records := by
  induction records with
  | nil => intro fuel _; simp [framePayload, splitGo]
  | cons v vs ih =>
    intro fuel hfuel
    have hne : framePayload (v :: vs) ≠ [] := by
      simp only [framePayload]
      rcases h : varIntWrite v.length with _ | ⟨b, bs⟩
      · exact absurd h (varIntWrite_ne_nil v.length)
      · simp
    obtain ⟨x, xs, hx⟩ : ∃ x xs, framePayload (v :: vs) = x :: xs := by
      rcases h : framePayload (v :: vs) with _ | ⟨x, xs⟩
      · exact absurd h hne
      · exact ⟨x, xs, rfl⟩
    have hpos : 0 < (framePayload (v :: vs)).length := by rw [hx]; simp
    obtain ⟨fuel', rfl⟩ : ∃ fuel', fuel = fuel' + 1 := by
      cases fuel with
      | zero => omega
      | succ k => exact ⟨k, rfl⟩
    rw [hx, splitGo, ← hx]
    show (match varIntRead (framePayload (v :: vs)) with
      | none => none
      | some (len, rest) =>
        if len ≤ rest.length then
          match splitGo fuel' (rest.drop len) with
          | none => none
          | some ds => some (rest.take len :: ds)
        else none) = some (v :: vs)
    have hread : varIntRead (framePayload (v :: vs)) =
        some (v.length, v ++ framePayload vs) := by
      have : framePayload (v :: vs) = varIntWrite v.length ++ (v ++ framePayload vs) := by
        simp [framePayload]
      rw [this, varIntRead_varIntWrite]
    rw [hread]
    have hlen : v.length ≤ (v ++ framePayload vs).length := by simp
    show (if v.length ≤ (v ++ framePayload vs).length then
        match splitGo fuel' ((v ++ framePayload vs).drop v.length) with
        | none => none
        | some ds => some ((v ++ framePayload vs).take v.length :: ds)
      else none) = some (v :: vs)
    rw [if_pos hlen]
    have hdrop : (v ++ framePayload vs).drop v.length = framePayload vs :=
      List.drop_left v (framePayload vs)
    have htake : (v ++ framePayload vs).take v.length = v :=
      List.take_left v (framePayload vs)
    have hfuel' : (framePayload vs).length ≤ fuel' := by
      have hw : 1 ≤ (varIntWrite v.length).length := by
        rcases h : varIntWrite v.length with _ | ⟨b, bs⟩
        · exact absurd h (varIntWrite_ne_nil v.length)
        · simp
      have : (framePayload (v :: vs)).length =
          (varIntWrite v.length).length + v.length + (framePayload vs).length := by
        simp [framePayload]; omega
      omega
    rw [hdrop, ih fuel' hfuel', htake]

theorem splitRecords_framePayload (records : List (List Nat)) :
    splitRecords (framePayload records) = some records :=
  splitGo_framePayload records (framePayload records).length (Nat.le_refl _)

theorem batch_body_roundtrip (z : ZlibCodec) (threshold : Nat)
    (records : List (List Nat)) :
    compressedPacketListRead z (compressedPacketListWrite z threshold records)
      = some records := by
  unfold compressedPacketListWrite compressedPacketListRead
  rw [z.decompress_compress]
  exact splitRecords_framePayload records

/-- C1: decoding the BATCH body produced by encoding a tuple of payload
records yields the original tuple, for every zlib codec meeting the library
contract, every configured threshold (hence whichever compression level
`write` chose), and every record tuple. -/
theorem batch_encode_decode_roundtrip (z : ZlibCodec) (threshold : Nat)
    (records : List (List Nat)) :
    compressedPacketListRead z (compressedPacketListWrite z threshold records)
      = some records :=
  batch_body_roundtrip z threshold records

/-- C5: the concatenated varint-length-prefixed BATCH payload is deflated at
level 0 below the configured threshold and at level 7 at or above it, and
the decoder decodes bodies produced at either level. -/
theorem batch_compress_threshold (z : ZlibCodec) (threshold : Nat)
    (records : List (List Nat)) :
    ((framePayload records).length < threshold →
      compressedPacketListWrite z threshold records
        = z.compress 0 (framePayload records)) ∧
    (threshold ≤ (framePayload records).length →
      compressedPacketListWrite z threshold records
        = z.compress 7 (framePayload records)) ∧
    compressedPacketListRead z (compressedPacketListWrite z threshold records)
      = some records := by
  refine ⟨?_, ?_, batch_body_roundtrip z threshold records⟩
  · intro h
    have hc : doesCompress threshold (framePayload records) = false := by
      rw [doesCompress]
      simp only [decide_eq_false_iff_not]
      omega
    simp [compressedPacketListWrite, hc]
  · intro h
    have hc : doesCompress threshold (framePayload records) = true := by
      rw [doesCompress]
      simp only [decide_eq_true_eq]
      exact h
    simp [compressedPacketListWrite, hc, COMPRESS_LEVEL]

/-- Closed instantiation of `batch_compress_threshold`: a 2-byte payload is
stored (level 0) under threshold 512 and deflated (level 7) under
threshold 2. -/
theorem batch_compress_threshold_witness :
    (framePayload [[1]]).length < 512 ∧
    compressedPacketListWrite storedZlib 512 [[1]]
      = storedZlib.compress 0 (framePayload [[1]]) ∧
    2 ≤ (framePayload [[1]]).length ∧
    compressedPacketListWrite storedZlib 2 [[1]]
      = storedZlib.compress 7 (framePayload [[1]]) :=
  ⟨by decide, (batch_compress_threshold storedZlib 512 [[1]]).1 (by decide),
   by decide, (batch_compress_threshold storedZlib 2 [[1]]).2.1 (by decide)⟩

theorem batchQueueSendLoop_groupRuns (encode : GamePacket → List Nat)
    (packets : List (Reliability × GamePacket)) :
    ∀ (payloads : List (List Nat)) (r : Reliability),
      batchQueueSendLoop encode payloads (some r) packets =
        match groupRuns packets with
        | [] => [(⟨payloads⟩, some r)]
        | (r', ps) :: gs =>
          if r = r' then
            (⟨payloads ++ ps.map encode⟩, some r) ::
              gs.map (fun g => (⟨g.2.map encode⟩, some g.1))
          else
            (⟨payloads⟩, some r) ::
              ((r', ps) :: gs).map (fun g => (⟨g.2.map encode⟩, some g.1)) := by
  induction packets with
  | nil => intro payloads r; simp [batchQueueSendLoop, groupRuns]
  | cons e rest ih =>
    obtain ⟨r1, p⟩ := e
    intro payloads r
    rcases hg : groupRuns rest with _ | ⟨⟨r2, ps⟩, gs⟩
    · by_cases hr : r = r1
      · subst hr
        rw [batchQueueSendLoop, if_neg (by simp), ih, hg]
        simp [groupRuns, hg]
      · rw [batchQueueSendLoop, if_pos ⟨by simp, by simp [hr]⟩, ih, hg]
        simp [groupRuns, hg, hr]
    · by_cases hr : r = r1
      · subst hr
        rw [batchQueueSendLoop, if_neg (by simp), ih, hg]
        by_cases h12 : r = r2
        · subst h12
          simp [groupRuns, hg]
        · simp [groupRuns, hg, h12]
      · rw [batchQueueSendLoop, if_pos ⟨by simp, by simp [hr]⟩, ih, hg]
        by_cases h12 : r1 = r2
        · subst h12
          simp [groupRuns, hg, hr]
        · simp [groupRuns, hg, hr, h12]

/-- C4 (counterexample): flushing a queue to which no packet was appended
still passes exactly one BATCH — with an empty payload list and reliability
`None` — to the send callback, so "passes no BATCH at all" fails. -/
theorem batch_queue_send_empty_counterexample :
    (batchQueueSend (fun _ => []) []).1 = [(⟨[]⟩, none)] ∧
    (batchQueueSend (fun _ => []) []).1 ≠ [] :=
  ⟨rfl, by decide⟩

/-- C4 (amended): on flush of a non-empty entry list, the queue passes one
BATCH per maximal run of consecutive equal-reliability entries, in append
order, each BATCH holding that run's encoded packets in append order with
that run's reliability; on flush of an empty entry list it passes exactly
one BATCH with no payloads and reliability `None`; afterwards the entry
list is empty. -/
theorem batch_queue_send_flush (encode : GamePacket → List Nat)
    (packets : List (Reliability × GamePacket)) :
    (packets ≠ [] →
      (batchQueueSend encode packets).1 = groupedBatchCalls encode packets) ∧
    (batchQueueSend encode []).1 = [(⟨[]⟩, none)] ∧
    (batchQueueSend encode packets).2 = [] := by
  refine ⟨?_, rfl, rfl⟩
  intro hne
  rcases packets with _ | ⟨⟨r1, p⟩, rest⟩
  · exact absurd rfl hne
  · show batchQueueSendLoop encode [] none ((r1, p) :: rest) = _
    rw [batchQueueSendLoop, if_neg (by simp)]
    simp only [List.nil_append]
    rw [batchQueueSendLoop_groupRuns encode rest [encode p] r1]
    rcases hg : groupRuns rest with _ | ⟨⟨r2, ps⟩, gs⟩
    · simp [groupedBatchCalls, groupRuns, hg]
    · by_cases h12 : r1 = r2
      · subst h12
        simp [groupedBatchCalls, groupRuns, hg]
      · simp [groupedBatchCalls, groupRuns, hg, h12]

/-- Closed instantiation of `batch_queue_send_flush` on a two-run entry
list: two BATCH calls, grouped and ordered, and the entry list is cleared. -/
theorem batch_queue_send_flush_witness :
    ([((⟨true, 0⟩ : Reliability), (⟨.PLAY_STATUS, [1]⟩ : GamePacket)),
      (⟨true, 0⟩, ⟨.SET_TIME, [2]⟩), (⟨false, 1⟩, ⟨.TEXT, [3]⟩)]
        ≠ ([] : List (Reliability × GamePacket))) ∧
    (batchQueueSend (fun g => g.body)
      [(⟨true, 0⟩, ⟨.PLAY_STATUS, [1]⟩), (⟨true, 0⟩, ⟨.SET_TIME, [2]⟩),
       (⟨false, 1⟩, ⟨.TEXT, [3]⟩)]).1 =
      groupedBatchCalls (fun g => g.body)
        [(⟨true, 0⟩, ⟨.PLAY_STATUS, [1]⟩), (⟨true, 0⟩, ⟨.SET_TIME, [2]⟩),
         (⟨false, 1⟩, ⟨.TEXT, [3]⟩)] :=
  ⟨by decide,
   (batch_queue_send_flush (fun g => g.body)
     [(⟨true, 0⟩, ⟨.PLAY_STATUS, [1]⟩), (⟨true, 0⟩, ⟨.SET_TIME, [2]⟩),
      (⟨false, 1⟩, ⟨.TEXT, [3]⟩)]).1 (by decide)⟩

/-- C9: `append` accepts exactly the eight game-packet types keyed in
`_RELIABILITY`, enqueueing with reliability (reliable=True, channel=0); any
other type raises `KeyError` with the entry list untouched. -/
theorem batch_queue_append_types (packets : List (Reliability × GamePacket))
    (packet : GamePacket) :
    (packet.id ∈ batchQueueTypes →
      batchQueueAppend packets packet
        = .ok (packets ++ [(⟨true, 0⟩, packet)])) ∧
    (packet.id ∉ batchQueueTypes →
      batchQueueAppend packets packet = .error .keyError) := by
  obtain ⟨id, body⟩ := packet
  constructor <;> intro h <;> cases id <;>
    simp_all [batchQueueAppend, batchQueueReliability, batchQueueTypes,
      RELIABILITY_CHANEL_DEFAULT]

/-- Closed instantiation of `batch_queue_append_types`: PLAY_STATUS is
enqueued with (reliable=True, channel=0); LOGIN raises `KeyError`. -/
theorem batch_queue_append_types_witness :
    GamePacketType.PLAY_STATUS ∈ batchQueueTypes ∧
    batchQueueAppend [] ⟨.PLAY_STATUS, []⟩
      = .ok [(⟨true, 0⟩, (⟨.PLAY_STATUS, []⟩ : GamePacket))] ∧
    GamePacketType.LOGIN ∉ batchQueueTypes ∧
    batchQueueAppend [] ⟨.LOGIN, []⟩ = .error .keyError :=
  ⟨by decide, (batch_queue_append_types [] ⟨.PLAY_STATUS, []⟩).1 (by decide),
   by decide, (batch_queue_append_types [] ⟨.LOGIN, []⟩).2 (by decide)⟩

theorem string_append_assoc (a b c : String) : a ++ b ++ c = a ++ (b ++ c) := by
  obtain ⟨la⟩ := a
  obtain ⟨lb⟩ := b
  obtain ⟨lc⟩ := c
  exact congrArg String.mk (List.append_assoc la lb lc)

/-- C2 (counterexample): on the malformed datagram `[0x02]` (no RakNet
packet has leading byte 0x02), `datagram_received` does raise to its
caller — the outer decode runs before the `try` block — refuting "drops it
without raising any exception to its caller". -/
theorem datagram_decode_failure_counterexample :
    (datagramReceived ⟨5065, "PyMineHub", "survival"⟩ ⟨[]⟩ [0x02]
      ("127.0.0.1", 19132)).exc ≠ none := by
  decide

/-- C2 (amended): for every incoming datagram whose outer RakNet decode
fails, the decode exception propagates to the endpoint's caller (only
`SessionNotFound` is caught); nothing is sent to the remote and the
session map is unchanged. -/
theorem datagram_decode_failure_propagates (cfg : ServerConfig)
    (st : RakNetProtocolState) (data : List Nat) (addr : Address)
    (h : raknetPacketDecode data = none) :
    datagramReceived cfg st data addr = ⟨some .decodeError, st, []⟩ := by
  simp [datagramReceived, h]

/-- Closed instantiation of `datagram_decode_failure_propagates` at the
malformed datagram `[0x02]`. -/
theorem datagram_decode_failure_propagates_witness :
    raknetPacketDecode [0x02] = none ∧
    datagramReceived ⟨5065, "PyMineHub", "survival"⟩ ⟨[]⟩ [0x02]
        ("127.0.0.1", 19132)
      = ⟨some .decodeError, ⟨[]⟩, []⟩ :=
  ⟨by decide,
   datagram_decode_failure_propagates ⟨5065, "PyMineHub", "survival"⟩ ⟨[]⟩
     [0x02] ("127.0.0.1", 19132) (by decide)⟩

/-- C8: an ACK, NACK or FRAME_SET datagram from an address with no tracked
session is dropped: no exception reaches the caller, nothing is sent, and
the session map is unchanged (`_get_session` raises `SessionNotFound`,
which `datagram_received` catches; `_remove_session` finds nothing to
delete). -/
theorem unknown_session_datagram_dropped (cfg : ServerConfig)
    (st : RakNetProtocolState) (data : List Nat) (addr : Address)
    (packet : RakNetPacketIn)
    (hdec : raknetPacketDecode data = some packet)
    (hkind : isSessionBound packet = true)
    (hunknown : assocFind st.sessions addr = none) :
    datagramReceived cfg st data addr = ⟨none, st, []⟩ := by
  cases packet <;>
    simp_all [isSessionBound, datagramReceived, processPacket, removeSession]

/-- Closed instantiation of `unknown_session_datagram_dropped` at an ACK
datagram from an untracked address. -/
theorem unknown_session_datagram_dropped_witness :
    raknetPacketDecode [0xc0, 9] = some (.ack [9]) ∧
    isSessionBound (.ack [9]) = true ∧
    assocFind (RakNetProtocolState.sessions ⟨[]⟩) ("10.0.0.7", 40000) = none ∧
    datagramReceived ⟨5065, "PyMineHub", "survival"⟩ ⟨[]⟩ [0xc0, 9]
        ("10.0.0.7", 40000)
      = ⟨none, ⟨[]⟩, []⟩ :=
  ⟨by decide, by decide, by decide,
   unknown_session_datagram_dropped ⟨5065, "PyMineHub", "survival"⟩ ⟨[]⟩
     [0xc0, 9] ("10.0.0.7", 40000) (.ack [9]) (by decide) (by decide)
     (by decide)⟩

/-- C3 (code evaluation): the endpoint keeps no activity clock — after any
number of ticks with no incoming datagram (and `handler.update()` returning
normally, as `MockHandler.update` does), the session map is exactly what it
was, and a subsequent FRAME_SET datagram from the same address is handled
through its still-tracked session (no exception, map unchanged) rather than
treated as unknown. This contradicts the claimed 30-second destruction;
src/pyminehub/raknet/server.py:23 marks the timeout as `TODO`. -/
theorem session_survives_inactivity (cfg : ServerConfig)
    (st : RakNetProtocolState) (addr : Address) (mtu : Nat) (n : Nat)
    (payload : List Nat)
    (h : assocFind st.sessions addr = some mtu) :
    ticksWithoutDatagrams n st = st ∧
    datagramReceived cfg st (0x80 :: payload) addr = ⟨none, st, []⟩ := by
  constructor
  · induction n with
    | zero => rfl
    | succ k ih => exact ih
  · have hdec : raknetPacketDecode (0x80 :: payload)
        = some (.frameSet 0x80 (beVal (payload.take 3)) (payload.drop 3)) := rfl
    simp [datagramReceived, hdec, processPacket, h]

/-- Closed instantiation of `session_survives_inactivity`: a session idle
for 3000 ticks is still tracked and still owns the next FRAME_SET. -/
theorem session_survives_inactivity_witness :
    assocFind (RakNetProtocolState.sessions ⟨[(("192.168.179.2", 58985), 1492)]⟩)
        ("192.168.179.2", 58985) = some 1492 ∧
    (ticksWithoutDatagrams 3000 ⟨[(("192.168.179.2", 58985), 1492)]⟩
        = ⟨[(("192.168.179.2", 58985), 1492)]⟩ ∧
      datagramReceived ⟨5065, "PyMineHub", "survival"⟩
          ⟨[(("192.168.179.2", 58985), 1492)]⟩ [0x80]
          ("192.168.179.2", 58985)
        = ⟨none, ⟨[(("192.168.179.2", 58985), 1492)]⟩, []⟩) :=
  ⟨by decide,
   session_survives_inactivity ⟨5065, "PyMineHub", "survival"⟩
     ⟨[(("192.168.179.2", 58985), 1492)]⟩ ("192.168.179.2", 58985) 1492 3000
     [] (by decide)⟩

/-- C6: every received UNCONNECTED_PING produces exactly one
UNCONNECTED_PONG to the sender, echoing the ping's `time_since_start`,
carrying the configured SERVER_GUID, and whose `server_id` is the
nine-field descriptor
`MCPE;<motd>;160;1.2.7;<current_players>;<max_players>;<guid decimal>;<world_name>;<game_mode title-cased>;`,
starting with `MCPE;` and ending with a semicolon. -/
theorem unconnected_ping_pong (cfg : ServerConfig) (st : RakNetProtocolState)
    (addr : Address) (t : Nat) :
    processPacket cfg st (.unconnectedPing t) addr
      = .ok (st, [(.unconnectedPong t cfg.serverGuid true (serverId cfg), addr)]) ∧
    serverId cfg
      = "MCPE" ++ ";" ++ "PyMineHub Server" ++ ";" ++ "160" ++ ";" ++ "1.2.7"
        ++ ";" ++ "0" ++ ";" ++ "20" ++ ";" ++ toString cfg.serverGuid ++ ";"
        ++ cfg.worldName ++ ";" ++ pyTitle cfg.gameMode ++ ";" ∧
    (∃ rest, serverId cfg = "MCPE;" ++ rest) ∧
    (∃ pre, serverId cfg = pre ++ ";") := by
  refine ⟨rfl, rfl, ?_, ?_⟩
  · refine ⟨"PyMineHub Server;160;1.2.7;0;20;" ++ toString cfg.serverGuid
      ++ ";" ++ cfg.worldName ++ ";" ++ pyTitle cfg.gameMode ++ ";", ?_⟩
    rw [serverId]
    rw [show ("MCPE;PyMineHub Server;160;1.2.7;0;20;" : String)
      = "MCPE;" ++ "PyMineHub Server;160;1.2.7;0;20;" from rfl]
    simp only [string_append_assoc]
  · exact ⟨"MCPE;PyMineHub Server;160;1.2.7;0;20;" ++ toString cfg.serverGuid
      ++ ";" ++ cfg.worldName ++ ";" ++ pyTitle cfg.gameMode, rfl⟩

theorem beBytes_length (n v : Nat) : (beBytes n v).length = n := by
  induction n generalizing v with
  | zero => rfl
  | succ k ih => simp [beBytes, ih]

theorem beVal_append_singleton (xs : List Nat) (b : Nat) :
    beVal (xs ++ [b]) = beVal xs * 256 + b := by
  simp [beVal, List.foldl_append]

theorem beVal_beBytes (n v : Nat) (h : v < 256 ^ n) :
    beVal (beBytes n v) = v := by
  induction n generalizing v with
  | zero =>
    have : v = 0 := by simpa using h
    simp [this, beBytes, beVal]
  | succ k ih =>
    rw [beBytes, beVal_append_singleton, ih (v / 256) ?_]
    · omega
    · have : 256 ^ (k + 1) = 256 ^ k * 256 := by ring
      omega

theorem readBytes_append (xs rest : List Nat) :
    readBytes xs.length (xs ++ rest) = some (xs, rest) := by
  rw [readBytes, if_pos (by simp)]
  rw [List.take_left, List.drop_left]

theorem readBytes_append' (n : Nat) (xs rest : List Nat) (h : xs.length = n) :
    readBytes n (xs ++ rest) = some (xs, rest) := by
  subst h
  exact readBytes_append xs rest

theorem map_compl_compl (l : List Nat) (h : ∀ b ∈ l, b < 256) :
    (l.map (fun b => 255 - b)).map (fun b => 255 - b) = l := by
  induction l with
  | nil => rfl
  | cons x xs ih =>
    have hx : x < 256 := h x (by simp)
    simp only [List.map_cons]
    rw [ih (fun b hb => h b (by simp [hb]))]
    congr 1
    omega

theorem beBytes_two (p : Nat) : beBytes 2 p = [p / 256 % 256, p % 256] := rfl

theorem readAddress_writeAddress (a : AddressInPacket) (rest : List Nat)
    (h : validAddress a) :
    readAddress (writeAddress a ++ rest) = some (a, rest) := by
  obtain ⟨hvi, hip, hport⟩ := h
  rcases hvi with ⟨hv, hlen⟩ | ⟨hv, hlen⟩
  · obtain ⟨v4, ip, port⟩ := a
    simp only at hv hlen hip hport
    subst hv
    have hrb : readBytes 4 ((ip.map (fun b => 255 - b))
        ++ (beBytes 2 port ++ rest))
        = some (ip.map (fun b => 255 - b), beBytes 2 port ++ rest) :=
      readBytes_append' 4 _ _ (by simp [hlen])
    have harr : writeAddress ⟨4, ip, port⟩ ++ rest
        = 4 :: ((ip.map (fun b => 255 - b)) ++ (beBytes 2 port ++ rest)) := by
      simp [writeAddress, List.append_assoc]
    rw [harr]
    simp only [readAddress]
    rw [if_true]
    rw [hrb, beBytes_two]
    simp only [List.cons_append, List.nil_append]
    simp [map_compl_compl ip hip]
    omega
  · obtain ⟨v6, ip, port⟩ := a
    simp only at hv hlen hip hport
    subst hv
    have hrb : readBytes 16 (ip ++ (beBytes 2 port ++ rest))
        = some (ip, beBytes 2 port ++ rest) :=
      readBytes_append' 16 _ _ hlen
    have harr : writeAddress ⟨6, ip, port⟩ ++ rest
        = 6 :: (ip ++ (beBytes 2 port ++ rest)) := by
      simp [writeAddress, List.append_assoc]
    rw [harr]
    simp only [readAddress]
    rw [if_true]
    rw [hrb, beBytes_two]
    simp only [List.cons_append, List.nil_append]
    simp
    omega

theorem readAddressList_flatMap (as : List AddressInPacket) (rest : List Nat)
    (h : ∀ a ∈ as, validAddress a) :
    readAddressList as.length (as.flatMap writeAddress ++ rest)
      = some (as, rest) := by
  induction as with
  | nil => rfl
  | cons a as ih =>
    have h1 : readAddress ((a :: as).flatMap writeAddress ++ rest)
        = some (a, as.flatMap writeAddress ++ rest) := by
      have hw : (a :: as).flatMap writeAddress ++ rest
          = writeAddress a ++ (as.flatMap writeAddress ++ rest) := by
        simp [List.flatMap_cons, List.append_assoc]
      rw [hw]
      exact readAddress_writeAddress a _ (h a (by simp))
    have h2 : readAddressList as.length (as.flatMap writeAddress ++ rest)
        = some (as, rest) := ih (fun x hx => h x (by simp [hx]))
    simp only [List.length_cons, readAddressList, h1, h2]

/-- C7: CONNECTION_REQUEST_ACCEPTED is laid out as one address record, a
short, exactly twenty address records, the echoed client time and the
server time; encoding writes exactly the first twenty records of its
address list, and decoding a produced encoding reads back exactly those
twenty together with the other fields. -/
theorem connection_request_accepted_roundtrip (p : ConnectionRequestAccepted)
    (hca : validAddress p.clientAddress)
    (hia : ∀ a ∈ p.internalAddresses, validAddress a)
    (hlen : p.internalAddresses.length = 20)
    (hidx : p.systemIndex < 65536)
    (hct : p.clientTimeSinceStart < 2 ^ 64)
    (hst : p.serverTimeSinceStart < 2 ^ 64) :
    connectionRequestAcceptedEncode p
      = some (writeAddress p.clientAddress ++ beBytes 2 p.systemIndex
          ++ p.internalAddresses.flatMap writeAddress
          ++ beBytes 8 p.clientTimeSinceStart
          ++ beBytes 8 p.serverTimeSinceStart) ∧
    ∃ bytes, connectionRequestAcceptedEncode p = some bytes ∧
      connectionRequestAcceptedDecode bytes = some p := by
  obtain ⟨ca, idx, as, ct, st⟩ := p
  simp only at hca hia hlen hidx hct hst
  have henc : connectionRequestAcceptedEncode ⟨ca, idx, as, ct, st⟩
      = some (writeAddress ca ++ beBytes 2 idx ++ as.flatMap writeAddress
          ++ beBytes 8 ct ++ beBytes 8 st) := by
    rw [connectionRequestAcceptedEncode]
    dsimp only
    rw [writeAddressList, if_pos (by omega)]
    rw [show as.take 20 = as from by rw [← hlen, List.take_length]]
  refine ⟨henc, _, henc, ?_⟩
  have hshape : writeAddress ca ++ beBytes 2 idx ++ as.flatMap writeAddress
      ++ beBytes 8 ct ++ beBytes 8 st
      = writeAddress ca ++ (beBytes 2 idx ++ (as.flatMap writeAddress
          ++ (beBytes 8 ct ++ (beBytes 8 st ++ [])))) := by
    simp [List.append_assoc]
  have h1 : readAddress (writeAddress ca ++ (beBytes 2 idx
      ++ (as.flatMap writeAddress ++ (beBytes 8 ct ++ (beBytes 8 st ++ [])))))
      = some (ca, beBytes 2 idx ++ (as.flatMap writeAddress
          ++ (beBytes 8 ct ++ (beBytes 8 st ++ [])))) :=
    readAddress_writeAddress ca _ hca
  have h2 : readBytes 2 (beBytes 2 idx ++ (as.flatMap writeAddress
      ++ (beBytes 8 ct ++ (beBytes 8 st ++ []))))
      = some (beBytes 2 idx, as.flatMap writeAddress
          ++ (beBytes 8 ct ++ (beBytes 8 st ++ []))) :=
    readBytes_append' 2 _ _ (beBytes_length 2 idx)
  have h3 : readAddressList 20 (as.flatMap writeAddress
      ++ (beBytes 8 ct ++ (beBytes 8 st ++ [])))
      = some (as, beBytes 8 ct ++ (beBytes 8 st ++ [])) := by
    rw [← hlen]
    exact readAddressList_flatMap as _ hia
  have h4 : readBytes 8 (beBytes 8 ct ++ (beBytes 8 st ++ []))
      = some (beBytes 8 ct, beBytes 8 st ++ []) :=
    readBytes_append' 8 _ _ (beBytes_length 8 ct)
  have h5 : readBytes 8 (beBytes 8 st ++ []) = some (beBytes 8 st, []) :=
    readBytes_append' 8 _ _ (beBytes_length 8 st)
  rw [hshape]
  simp only [connectionRequestAcceptedDecode, h1, h2, h3, h4, h5]
  rw [beVal_beBytes 2 idx (by omega), beVal_beBytes 8 ct hct,
    beVal_beBytes 8 st hst]

/-- Closed instantiation of `connection_request_accepted_roundtrip` at a
packet with twenty IPv4 records. -/
theorem connection_request_accepted_roundtrip_witness :
    validAddress ⟨4, [192, 168, 0, 1], 58985⟩ ∧
    (∀ a ∈ List.replicate 20 (⟨4, [255, 255, 255, 255], 19132⟩ : AddressInPacket),
      validAddress a) ∧
    (List.replicate 20 (⟨4, [255, 255, 255, 255], 19132⟩ : AddressInPacket)).length
      = 20 ∧
    (∃ bytes,
      connectionRequestAcceptedEncode
        ⟨⟨4, [192, 168, 0, 1], 58985⟩, 0,
          List.replicate 20 ⟨4, [255, 255, 255, 255], 19132⟩, 1234, 5678⟩
        = some bytes ∧
      connectionRequestAcceptedDecode bytes
        = some ⟨⟨4, [192, 168, 0, 1], 58985⟩, 0,
            List.replicate 20 ⟨4, [255, 255, 255, 255], 19132⟩, 1234, 5678⟩) :=
  ⟨by decide, by decide, by decide,
   (connection_request_accepted_roundtrip
     ⟨⟨4, [192, 168, 0, 1], 58985⟩, 0,
       List.replicate 20 ⟨4, [255, 255, 255, 255], 19132⟩, 1234, 5678⟩
     (by decide) (by decide) (by decide) (by decide) (by decide)
     (by decide)).2⟩

theorem assocFind_assocSet {κ α : Type} [DecidableEq κ]
    (l : List (κ × α)) (k k' : κ) (v : α) :
    assocFind (assocSet l k v) k'
      = if k = k' then some v else assocFind l k' := by
  induction l with
  | nil => rfl
  | cons e t ih =>
    obtain ⟨k0, w⟩ := e
    by_cases h0 : k0 = k
    · subst h0
      rw [assocSet, if_pos rfl]
      by_cases h1 : k0 = k'
      · subst h1
        simp [assocFind]
      · simp [assocFind, h1]
    · rw [assocSet, if_neg h0]
      by_cases h1 : k0 = k'
      · subst h1
        have hk : ¬k = k0 := fun h => h0 h.symm
        simp [assocFind, hk]
      · simp [assocFind, h1, ih]

/-- C10: `break_block` at a position whose current block is AIR or BEDROCK
returns `None` and modifies no block anywhere in the space; a block is set
to AIR (with its items returned) only when its type is neither AIR nor
BEDROCK. -/
theorem space_break_block (toItem : BlockType → List Item) (s : Space)
    (position : Vector3) :
    (((s.blockAt position).type = .AIR ∨ (s.blockAt position).type = .BEDROCK) →
      (Space.breakBlock toItem s position).1 = none ∧
      ∀ q, (Space.breakBlock toItem s position).2.blockAt q = s.blockAt q) ∧
    (¬((s.blockAt position).type = .AIR ∨ (s.blockAt position).type = .BEDROCK) →
      (Space.breakBlock toItem s position).2.blockAt position = BLOCK_AIR ∧
      (Space.breakBlock toItem s position).1
        = some (toItem (s.blockAt position).type)) := by
  rcases hc : assocFind s.cache (chunkPositionAt position) with _ | chunk
  · have hblock : s.blockAt position
        = (s.generator (chunkPositionAt position)).getBlock
            (toLocalPosition position) := by
      rw [Space.blockAt, hc]
    have hget : s.getChunk (chunkPositionAt position)
        = (s.generator (chunkPositionAt position),
            ⟨assocSet s.cache (chunkPositionAt position)
              (s.generator (chunkPositionAt position)), s.generator⟩) := by
      rw [Space.getChunk, hc]
    constructor
    · intro hair
      rw [Space.breakBlock, hget]
      simp only
      rw [if_pos (by rw [hblock] at hair; exact hair)]
      refine ⟨rfl, fun q => ?_⟩
      simp only [Space.blockAt, assocFind_assocSet]
      by_cases hq : chunkPositionAt position = chunkPositionAt q
      · rw [if_pos hq, ← hq, hc]
      · rw [if_neg hq]
    · intro hother
      rw [Space.breakBlock, hget]
      simp only
      rw [if_neg (by rw [hblock] at hother; exact hother)]
      constructor
      · simp [Space.blockAt, Space.cacheSet, assocFind_assocSet,
          Chunk.setBlock, Chunk.getBlock]
      · rw [hblock]
  · have hblock : s.blockAt position
        = chunk.getBlock (toLocalPosition position) := by
      rw [Space.blockAt, hc]
    have hget : s.getChunk (chunkPositionAt position) = (chunk, s) := by
      rw [Space.getChunk, hc]
    constructor
    · intro hair
      rw [Space.breakBlock, hget]
      simp only
      rw [if_pos (by rw [hblock] at hair; exact hair)]
      exact ⟨rfl, fun q => rfl⟩
    · intro hother
      rw [Space.breakBlock, hget]
      simp only
      rw [if_neg (by rw [hblock] at hother; exact hother)]
      constructor
      · simp [Space.blockAt, Space.cacheSet, assocFind_assocSet,
          Chunk.setBlock, Chunk.getBlock]
      · rw [hblock]

/-- Closed instantiation of `space_break_block`: breaking AIR returns
`None` and leaves every block as it was; breaking STONE removes it. -/
theorem space_break_block_witness :
    ((Space.blockAt ⟨[], fun _ => ⟨fun q => if q.y ≤ 0 then ⟨.STONE, 0⟩
        else ⟨.AIR, 0⟩⟩⟩ ⟨1, 5, 2⟩).type = .AIR ∨
      (Space.blockAt ⟨[], fun _ => ⟨fun q => if q.y ≤ 0 then ⟨.STONE, 0⟩
        else ⟨.AIR, 0⟩⟩⟩ ⟨1, 5, 2⟩).type = .BEDROCK) ∧
    ((Space.breakBlock (fun _ => []) ⟨[], fun _ => ⟨fun q => if q.y ≤ 0
        then ⟨.STONE, 0⟩ else ⟨.AIR, 0⟩⟩⟩ ⟨1, 5, 2⟩).1 = none ∧
      ∀ q, (Space.breakBlock (fun _ => []) ⟨[], fun _ => ⟨fun q =>
          if q.y ≤ 0 then ⟨.STONE, 0⟩ else ⟨.AIR, 0⟩⟩⟩ ⟨1, 5, 2⟩).2.blockAt q
        = Space.blockAt ⟨[], fun _ => ⟨fun q => if q.y ≤ 0 then ⟨.STONE, 0⟩
            else ⟨.AIR, 0⟩⟩⟩ q) :=
  ⟨Or.inl rfl,
   (space_break_block (fun _ => [])
     ⟨[], fun _ => ⟨fun q => if q.y ≤ 0 then ⟨.STONE, 0⟩ else ⟨.AIR, 0⟩⟩⟩
     ⟨1, 5, 2⟩).1 (Or.inl rfl)⟩

end PyMineHub
